import Mathlib

/-!
Verification of the `Interfacing_Math_Functions` numerical toolkit.

The development shallowly embeds the core of the repository:

* `functions.hpp`: the `Function` and `Differentiable_Function` value-semantics
  wrappers with their shared evaluation counters (`std::shared_ptr<size_t>`);
* the root finders `Newton` and `Steffensen`;
* `Adam.hpp`: the Adam optimizer `Adam_optimize` with its configuration record.

Scalars (`double` in the source) are modelled as `ℚ`; `std::valarray` as
`List ℚ`; the square root (whose defining properties none of the verified
claims depend on) is passed as an explicit function parameter `sq`.  Shared
counter cells are modelled by an explicit store (`Store`): a cell is a `Nat`
address, `initialize_counter` allocates a fresh cell, and every wrapper holds
an optional cell address, exactly mirroring the `shared_ptr<size_t>` members.
Mutation of the caller-owned iterate is modelled by returning the final
iterate.  The solver progress printing (`show_iteration`/`std::cerr`) performs
no state change relevant to any claim (in `Adam_optimize` it may evaluate the
objective value, touching only the value counter, which no Adam claim
mentions) and is not modelled.
-/

namespace Optimize

/-! ### Shared counter store

Models the heap of `std::shared_ptr<size_t>` counter cells.  `alloc` is
`std::make_shared<size_t>(0)`: it returns a fresh address holding `0`. -/

structure Store where
  cells : Nat → Nat
  next : Nat

def Store.read (s : Store) (c : Nat) : Nat := s.cells c

def Store.bump (s : Store) (c : Nat) : Store :=
  ⟨fun c2 => if c2 = c then s.cells c + 1 else s.cells c2, s.next⟩

def Store.alloc (s : Store) : Store × Nat :=
  (⟨fun c2 => if c2 = s.next then 0 else s.cells c2, s.next + 1⟩, s.next)

def Store.empty : Store := ⟨fun _ => 0, 0⟩

/-- Models `if (_f_counter) ++(*_f_counter);` — bump the cell when a counter is installed. -/
def bumpOpt (s : Store) : Option Nat → Store
  | none => s
  | some c => s.bump c

/-- Spec §7: error kind raised by reading a counter that was never initialized
(the `assert(_f_counter)` in `f_counter()` / `df_counter()`). -/
inductive Counter_Error where
  | PreconditionViolation
deriving DecidableEq

/-- Spec §7: error kind raised by a configuration value violating its declared
range. -/
inductive Config_Error where
  | InvalidConfiguration
deriving DecidableEq

/-! ### `Function` (functions.hpp, lines 14–132)

A value-semantics wrapper around one evaluation strategy
(`_pimpl : shared_ptr<const Interface>`, here the pure map `impl`) and an
optional shared value counter (`_f_counter`, here an optional cell address).
All three C++ constructor overloads reduce to a single strategy; a copy of a
`Function` is the same Lean value, so copies share `impl` and the counter cell
address exactly as the `shared_ptr` members are shared. -/

structure Function where
  impl : ℚ → ℚ
  f_counter : Option Nat

/-- Method `Function::f`: bump the value counter if installed, then evaluate. -/
def Function.f (fn : Function) (x : ℚ) (s : Store) : ℚ × Store :=
  (fn.impl x, bumpOpt s fn.f_counter)

/-- Method `Function::initialize_counter`: `_f_counter = std::make_shared<size_t>(0)` —
installs a brand-new zero cell on this instance. -/
def Function.init_counter (fn : Function) (s : Store) : Function × Store :=
  (⟨fn.impl, some (s.alloc).2⟩, (s.alloc).1)

/-- Method `Function::f_counter()`: `assert(_f_counter); return *_f_counter;` — the
failed assertion is the `PreconditionViolation` of the spec. -/
def Function.f_counter_read (fn : Function) (s : Store) : Except Counter_Error Nat :=
  match fn.f_counter with
  | none => Except.error Counter_Error.PreconditionViolation
  | some c => Except.ok (s.read c)

/-! ### `Differentiable_Function` (functions.hpp, lines 150–304)

One combined user procedure `compute(x, f*, df*)` serves all three entry
points; for a pure computation this is captured by the two maps `f_impl` and
`df_impl`.  Two counter cells: `_f_counter` and `_df_counter`. -/

structure Differentiable_Function where
  f_impl : ℚ → ℚ
  df_impl : ℚ → ℚ
  f_counter : Option Nat
  df_counter : Option Nat

/-- Method `Differentiable_Function::f`: bumps the value counter only. -/
def Differentiable_Function.f (fn : Differentiable_Function) (x : ℚ) (s : Store) :
    ℚ × Store :=
  (fn.f_impl x, bumpOpt s fn.f_counter)

/-- Method `Differentiable_Function::df`: bumps the derivative counter only. -/
def Differentiable_Function.df (fn : Differentiable_Function) (x : ℚ) (s : Store) :
    ℚ × Store :=
  (fn.df_impl x, bumpOpt s fn.df_counter)

/-- Method `Differentiable_Function::f_df`: bumps the value counter, then the
derivative counter, then evaluates both outputs. -/
def Differentiable_Function.f_df (fn : Differentiable_Function) (x : ℚ) (s : Store) :
    (ℚ × ℚ) × Store :=
  ((fn.f_impl x, fn.df_impl x), bumpOpt (bumpOpt s fn.f_counter) fn.df_counter)

/-- Method `Differentiable_Function::initialize_counter`: installs two brand-new zero
cells (value first, then derivative). -/
def Differentiable_Function.init_counter (fn : Differentiable_Function) (s : Store) :
    Differentiable_Function × Store :=
  (⟨fn.f_impl, fn.df_impl, some (s.alloc).2, some ((s.alloc).1.alloc).2⟩,
    ((s.alloc).1.alloc).1)

/-- Models `operator function_type() const { return {_pimpl, _f_counter}; }` and
`as_function`: the downgrade keeps the same strategy and the same value
counter cell, erasing only the derivative capability. -/
def Differentiable_Function.as_function (fn : Differentiable_Function) : Function :=
  ⟨fn.f_impl, fn.f_counter⟩

/-- Method `Differentiable_Function::f_counter()` with its `assert(_f_counter)`. -/
def Differentiable_Function.f_counter_read (fn : Differentiable_Function) (s : Store) :
    Except Counter_Error Nat :=
  match fn.f_counter with
  | none => Except.error Counter_Error.PreconditionViolation
  | some c => Except.ok (s.read c)

/-- Method `Differentiable_Function::df_counter()` with its `assert(_df_counter)`. -/
def Differentiable_Function.df_counter_read (fn : Differentiable_Function) (s : Store) :
    Except Counter_Error Nat :=
  match fn.df_counter with
  | none => Except.error Counter_Error.PreconditionViolation
  | some c => Except.ok (s.read c)

/-! ### Evaluation event streams

To reason about "any mix of evaluations through any mix of aliases", an
evaluation run is a list of events, each naming the wrapper it goes through,
the entry point used, and the argument. -/

inductive EvalEvent where
  | fnVal (fn : Function) (x : ℚ)
  | dfVal (fn : Differentiable_Function) (x : ℚ)
  | dfDeriv (fn : Differentiable_Function) (x : ℚ)
  | dfBoth (fn : Differentiable_Function) (x : ℚ)

def EvalEvent.apply : EvalEvent → Store → Store
  | .fnVal fn x, s => (fn.f x s).2
  | .dfVal fn x, s => (fn.f x s).2
  | .dfDeriv fn x, s => (fn.df x s).2
  | .dfBoth fn x, s => (fn.f_df x s).2

def runEvents : List EvalEvent → Store → Store
  | [], s => s
  | e :: es, s => runEvents es (e.apply s)

/-- Does this event increment the value counter?  (`value` and
`value_and_derivative` do; `derivative` does not.) -/
def EvalEvent.bumpsF : EvalEvent → Bool
  | .fnVal _ _ => true
  | .dfVal _ _ => true
  | .dfDeriv _ _ => false
  | .dfBoth _ _ => true

/-- Does this event increment the derivative counter?  (`derivative` and
`value_and_derivative` do.) -/
def EvalEvent.bumpsDF : EvalEvent → Bool
  | .fnVal _ _ => false
  | .dfVal _ _ => false
  | .dfDeriv _ _ => true
  | .dfBoth _ _ => true

/-- Number of events in the stream that increment the value counter. -/
def countF : List EvalEvent → Nat
  | [] => 0
  | e :: es => (if e.bumpsF then 1 else 0) + countF es

/-- Number of events in the stream that increment the derivative counter. -/
def countDF : List EvalEvent → Nat
  | [] => 0
  | e :: es => (if e.bumpsDF then 1 else 0) + countDF es

/-- The wrapper behind the event is an alias sharing value cell `cf` and
derivative cell `cd`. -/
def EvalEvent.sharesCounters (cf cd : Nat) : EvalEvent → Prop
  | .fnVal fn _ => fn.f_counter = some cf
  | .dfVal fn _ => fn.f_counter = some cf ∧ fn.df_counter = some cd
  | .dfDeriv fn _ => fn.f_counter = some cf ∧ fn.df_counter = some cd
  | .dfBoth fn _ => fn.f_counter = some cf ∧ fn.df_counter = some cd

/-- The event is a `value` evaluation through an alias holding value cell `c`
(so it bumps exactly cell `c`). -/
def EvalEvent.valueAt (c : Nat) : EvalEvent → Prop
  | .fnVal fn _ => fn.f_counter = some c
  | .dfVal fn _ => fn.f_counter = some c
  | .dfDeriv _ _ => False
  | .dfBoth _ _ => False

/-! ### Newton (scalar root finding, default epsilon `1e-10`, default cap 20)

```
for (size_t iter = 1; iter <= max_iter; ++iter) {
  f_obj.f_df(x, f, df);
  auto delta_x = -f / df;
  has_converged = std::abs(delta_x) < epsilon;
  x = x + delta_x;
  if (has_converged) break;
}
return has_converged;
```
The loop is embedded with the remaining iteration count as fuel; the result is
(converged flag, final iterate, final store). -/

def Newton_loop (f_obj : Differentiable_Function) (epsilon : ℚ) :
    Nat → ℚ → Store → Bool × ℚ × Store
  | 0, x, s => (false, x, s)
  | fuel + 1, x, s =>
    let fd := f_obj.f_df x s
    let delta_x := -fd.1.1 / fd.1.2
    let has_converged := |delta_x| < epsilon
    if has_converged then (true, x + delta_x, fd.2)
    else Newton_loop f_obj epsilon fuel (x + delta_x) fd.2

def Newton (f_obj : Differentiable_Function) (x : ℚ) (s : Store)
    (epsilon : ℚ := 1 / 10 ^ 10) (max_iter : Nat := 20) : Bool × ℚ × Store :=
  Newton_loop f_obj epsilon max_iter x s

/-- The store-free Newton update increment `-f/df` of one iteration. -/
def newtonDelta (f_obj : Differentiable_Function) (x : ℚ) : ℚ :=
  -f_obj.f_impl x / f_obj.df_impl x

def newtonStep (f_obj : Differentiable_Function) (x : ℚ) : ℚ :=
  x + newtonDelta f_obj x

/-- The iterate after `i` Newton updates from `x`. -/
def newtonIter (f_obj : Differentiable_Function) : Nat → ℚ → ℚ
  | 0, x => x
  | i + 1, x => newtonIter f_obj i (newtonStep f_obj x)

/-! ### Steffensen (scalar root finding over a plain `Function`)

```
for (size_t iter = 1; iter <= max_iter; ++iter) {
  f_obj.f(x, f);
  f_obj.f(x + f, g);
  auto delta_x = -f * f / (g - f);
  has_converged = std::abs(delta_x) < epsilon;
  x = x + delta_x;
  if (has_converged) break;
}
return has_converged;
``` -/

def Steffensen_loop (f_obj : Function) (epsilon : ℚ) :
    Nat → ℚ → Store → Bool × ℚ × Store
  | 0, x, s => (false, x, s)
  | fuel + 1, x, s =>
    let fs := f_obj.f x s
    let gs := f_obj.f (x + fs.1) fs.2
    let delta_x := -fs.1 * fs.1 / (gs.1 - fs.1)
    let has_converged := |delta_x| < epsilon
    if has_converged then (true, x + delta_x, gs.2)
    else Steffensen_loop f_obj epsilon fuel (x + delta_x) gs.2

def Steffensen (f_obj : Function) (x : ℚ) (s : Store)
    (epsilon : ℚ := 1 / 10 ^ 10) (max_iter : Nat := 20) : Bool × ℚ × Store :=
  Steffensen_loop f_obj epsilon max_iter x s

/-- The store-free Steffensen update increment `-f*f/(g-f)` of one iteration. -/
def steffDelta (f_obj : Function) (x : ℚ) : ℚ :=
  -f_obj.impl x * f_obj.impl x / (f_obj.impl (x + f_obj.impl x) - f_obj.impl x)

def steffStep (f_obj : Function) (x : ℚ) : ℚ :=
  x + steffDelta f_obj x

/-- The iterate after `i` Steffensen updates from `x`. -/
def steffIter (f_obj : Function) : Nat → ℚ → ℚ
  | 0, x => x
  | i + 1, x => steffIter f_obj i (steffStep f_obj x)

/-! ### Adam configuration (Adam.hpp, lines 63–80)

`double` defaults become their exact rational values; the `internal_epsilon`
default `sqrt(std::numeric_limits<double>::epsilon())` is exactly `2^-26`.
The validated ranges of `beta_1`, `beta_2` and `internal_epsilon` are checked
at assignment (see `Named_Assert_Type_assign` below), so the record itself
holds plain scalars, consumed read-only by the solver. -/

structure Adam_Configuration where
  maximimum_iterations : Nat := 100
  alpha_schedule : Nat → ℚ := fun _ => 1 / 100
  beta_1 : ℚ := 9 / 10
  beta_2 : ℚ := 999 / 1000
  absolute_epsilon : ℚ := 1 / 1000000
  verbose : Bool := false
  internal_epsilon : ℚ := 1 / 2 ^ 26

/-- The functor `Assert_In_01_Strict::operator()`: `assert(t > 0); assert(t < 1);`. -/
def Assert_In_01_Strict (t : ℚ) : Bool :=
  decide (t > 0) && decide (t < 1)

/-- Modelled from the spec: the `Named_Assert_Type` wrapper is declared in
`optional_argument.hpp`, which is not among the provided sources.  Per the
spec (§4.3, §7), assigning a value to such a named parameter runs its assert
functor on the supplied value synchronously at the point of assignment; a
violation fails with `InvalidConfiguration`, and the value is never clamped
nor the check deferred to solve time. -/
def Named_Assert_Type_assign (check : ℚ → Bool) (v : ℚ) : Except Config_Error ℚ :=
  if check v then Except.ok v else Except.error Config_Error.InvalidConfiguration

/-- Assignment to `Adam_Beta_1 = Named_Assert_Type<…, Assert_In_01_Strict<double>, double>`:
supplying a value runs the strict-(0,1) check. -/
def Adam_Beta_1_assign (v : ℚ) : Except Config_Error ℚ :=
  Named_Assert_Type_assign Assert_In_01_Strict v

/-- Assignment to `Adam_Beta_2` validates identically to `Adam_Beta_1`. -/
def Adam_Beta_2_assign (v : ℚ) : Except Config_Error ℚ :=
  Named_Assert_Type_assign Assert_In_01_Strict v

/-! ### Adam solver (Adam.hpp, lines 108–203)

`std::valarray` arithmetic is element-wise with scalar broadcast. -/

def smul (a : ℚ) (v : List ℚ) : List ℚ := v.map (fun t => a * t)

def vadd (u v : List ℚ) : List ℚ := List.zipWith (fun a b => a + b) u v

def vsub (u v : List ℚ) : List ℚ := List.zipWith (fun a b => a - b) u v

def vmul (u v : List ℚ) : List ℚ := List.zipWith (fun a b => a * b) u v

def vdiv (u v : List ℚ) : List ℚ := List.zipWith (fun a b => a / b) u v

def vaddScalar (v : List ℚ) (a : ℚ) : List ℚ := v.map (fun t => t + a)

def vsqrt (sq : ℚ → ℚ) (v : List ℚ) : List ℚ := v.map sq

/-- Models `squared_norm_2`: `sum += pow(abs(v[i]), 2)` over all components. -/
def squared_norm_2 (v : List ℚ) : ℚ := (v.map (fun t => |t| ^ 2)).sum

/-- Models `norm_2(v) = std::sqrt(squared_norm_2(v))`. -/
def norm_2 (sq : ℚ → ℚ) (v : List ℚ) : ℚ := sq (squared_norm_2 v)

/-- Update `m_k = beta_1 * m_k + (1 - beta_1) * grad`. -/
def adam_m_update (beta_1 : ℚ) (m_k grad : List ℚ) : List ℚ :=
  vadd (smul beta_1 m_k) (smul (1 - beta_1) grad)

/-- Update `v_k = beta_2 * v_k + (1 - beta_2) * grad * grad`. -/
def adam_v_update (beta_2 : ℚ) (v_k grad : List ℚ) : List ℚ :=
  vadd (smul beta_2 v_k) (smul (1 - beta_2) (vmul grad grad))

/-- The iterate update of one Adam iteration, built from the already updated
moments, exactly as in the source:
```
hat_m_k = (1 / (1 - std::pow(beta_1, k))) * m_k;
hat_v_k = (1 / (1 - std::pow(beta_2, k))) * v_k;
x_init  = x_init - alpha_schedule(k) * hat_m_k / (sqrt(hat_v_k) + internal_epsilon);
``` -/
def adam_x_update (cfg : Adam_Configuration) (sq : ℚ → ℚ) (k : Nat)
    (m_k v_k x : List ℚ) : List ℚ :=
  vsub x
    (vdiv (smul (cfg.alpha_schedule k) (smul (1 / (1 - cfg.beta_1 ^ k)) m_k))
      (vaddScalar (vsqrt sq (smul (1 / (1 - cfg.beta_2 ^ k)) v_k)) cfg.internal_epsilon))

/-- Tags a result whose last executed iteration performed an update: the third
component counts the update steps executed by the loop. -/
def bump_steps (r : Bool × List ℚ × Nat) : Bool × List ℚ × Nat :=
  (r.1, r.2.1, r.2.2 + 1)

/-- Models the `for (size_t k = 1; k < maximimum_iterations; ++k)` loop of
`Adam_optimize`: fuel is the number of loop entries remaining
(`maximimum_iterations - k`); the result carries the converged flag, the final
iterate, and the number of update steps executed.  The progress printing
(`has_converged or (verbose and k % 10 == 1)`) only writes to `std::cerr` and
evaluates the objective value; it does not affect the convergence state, the
iterate, or the derivative counter, and is omitted. -/
def Adam_loop (cfg : Adam_Configuration) (sq : ℚ → ℚ) (dfF : List ℚ → List ℚ) :
    Nat → Nat → List ℚ → List ℚ → List ℚ → Bool × List ℚ × Nat
  | 0, _k, _m_k, _v_k, x => (false, x, 0)
  | fuel + 1, k, m_k, v_k, x =>
    let grad := dfF x
    if norm_2 sq grad < cfg.absolute_epsilon then (true, x, 0)
    else
      let m_k2 := adam_m_update cfg.beta_1 m_k grad
      let v_k2 := adam_v_update cfg.beta_2 v_k grad
      bump_steps (Adam_loop cfg sq dfF fuel (k + 1) m_k2 v_k2
        (adam_x_update cfg sq k m_k2 v_k2 x))

/-- Models `Adam_optimize(configuration, objective_function, x_init)`: moment vectors
are freshly zero-initialized at the dimensionality of the iterate, and the
loop starts at `k = 1` with `maximimum_iterations - 1` loop entries
available.  The gradient map `dfF` stands for `objective_function.df`. -/
def Adam_optimize (cfg : Adam_Configuration) (sq : ℚ → ℚ)
    (dfF : List ℚ → List ℚ) (x_init : List ℚ) : Bool × List ℚ × Nat :=
  Adam_loop cfg sq dfF (cfg.maximimum_iterations - 1) 1
    (List.replicate x_init.length 0) (List.replicate x_init.length 0) x_init

/-! ### Concrete fixtures

Concrete wrappers, stores and configurations used as inputs of witness and
counterexample theorems. -/

/-- A differentiable wrapper (both strategies the identity map) whose counters
hold cells 0 and 1. -/
def fnW : Differentiable_Function := ⟨fun q => q, fun q => q, some 0, some 1⟩

/-- A plain wrapper with no counter installed. -/
def fnNone : Function := ⟨fun q => q, none⟩

/-- A plain wrapper whose value counter holds cell 0. -/
def fnSome : Function := ⟨fun q => q, some 0⟩

/-- A differentiable wrapper with no counters installed. -/
def dfnNone : Differentiable_Function := ⟨fun q => q, fun q => q, none, none⟩

/-- The constant-zero objective with value counter at cell 0. -/
def steffW : Function := ⟨fun _ => 0, some 0⟩

/-- An objective whose Newton increment is `-1/4` at the origin and `-1`
everywhere else (derivative constantly 1, no counters). -/
def fdfC : Differentiable_Function :=
  ⟨fun q => if q = 0 then 1 / 4 else 1, fun _ => 1, none, none⟩

/-- A store with two allocated cells, cell 0 holding an accumulated count 5. -/
def sW : Store := ⟨fun c => if c = 0 then 5 else 0, 2⟩

/-- A mixed stream of evaluations through `fnW` and its downgrade. -/
def esW : List EvalEvent :=
  [EvalEvent.dfVal fnW 1, EvalEvent.dfDeriv fnW 2, EvalEvent.dfBoth fnW 3,
    EvalEvent.fnVal fnW.as_function 4]

/-- Two value evaluations, one through the downgrade and one through the
original. -/
def es6 : List (Bool × ℚ) := [(true, 1), (false, 2)]

/-- A configuration with the iteration cap set to 1. -/
def cfg1 : Adam_Configuration := { maximimum_iterations := 1 }

/-- A configuration with iteration cap 2 and gradient-norm threshold 1. -/
def cfgA : Adam_Configuration := { maximimum_iterations := 2, absolute_epsilon := 1 }

/-- A gradient map that vanishes everywhere. -/
def dfW : List ℚ → List ℚ := fun _ => [0]

/-! ## Theorems -/

/-! ### Store lemmas -/

theorem Store.read_bump_self (s : Store) (c : Nat) :
    (s.bump c).read c = s.read c + 1 := by
  simp [Store.bump, Store.read]

theorem Store.read_bump_ne (s : Store) (c c2 : Nat) (h : c2 ≠ c) :
    (s.bump c).read c2 = s.read c2 := by
  simp [Store.bump, Store.read, h]

/-- Counting lemma for event streams whose wrappers all alias the same pair of
distinct counter cells: the value cell advances by the number of
value-counting events, the derivative cell by the number of
derivative-counting events. -/
theorem runEvents_sharesCounters (cf cd : Nat) (hne : cf ≠ cd) :
    ∀ (es : List EvalEvent) (s : Store), (∀ e ∈ es, e.sharesCounters cf cd) →
      (runEvents es s).read cf = s.read cf + countF es ∧
      (runEvents es s).read cd = s.read cd + countDF es := by
  intro es
  induction es with
  | nil => intro s _; simp [runEvents, countF, countDF]
  | cons e es ih =>
    intro s hall
    have hrest : ∀ e2 ∈ es, e2.sharesCounters cf cd :=
      fun e2 h2 => hall e2 (List.mem_cons_of_mem e h2)
    have he := hall e (List.mem_cons_self e es)
    cases e with
    | fnVal fn x =>
      simp only [EvalEvent.sharesCounters] at he
      have h2 := ih (s.bump cf) hrest
      simp only [runEvents, EvalEvent.apply, Function.f, he, bumpOpt]
      refine ⟨?_, ?_⟩
      · rw [h2.1, Store.read_bump_self]
        simp [countF, EvalEvent.bumpsF]
        omega
      · rw [h2.2, Store.read_bump_ne _ _ _ (Ne.symm hne)]
        simp [countDF, EvalEvent.bumpsDF]
    | dfVal fn x =>
      have h2 := ih (s.bump cf) hrest
      simp only [runEvents, EvalEvent.apply, Differentiable_Function.f, he.1, bumpOpt]
      refine ⟨?_, ?_⟩
      · rw [h2.1, Store.read_bump_self]
        simp [countF, EvalEvent.bumpsF]
        omega
      · rw [h2.2, Store.read_bump_ne _ _ _ (Ne.symm hne)]
        simp [countDF, EvalEvent.bumpsDF]
    | dfDeriv fn x =>
      have h2 := ih (s.bump cd) hrest
      simp only [runEvents, EvalEvent.apply, Differentiable_Function.df, he.2, bumpOpt]
      refine ⟨?_, ?_⟩
      · rw [h2.1, Store.read_bump_ne _ _ _ hne]
        simp [countF, EvalEvent.bumpsF]
      · rw [h2.2, Store.read_bump_self]
        simp [countDF, EvalEvent.bumpsDF]
        omega
    | dfBoth fn x =>
      have h2 := ih ((s.bump cf).bump cd) hrest
      simp only [runEvents, EvalEvent.apply, Differentiable_Function.f_df, he.1, he.2, bumpOpt]
      refine ⟨?_, ?_⟩
      · rw [h2.1, Store.read_bump_ne _ _ _ hne, Store.read_bump_self]
        simp [countF, EvalEvent.bumpsF]
        omega
      · rw [h2.2, Store.read_bump_self, Store.read_bump_ne _ _ _ (Ne.symm hne)]
        simp [countDF, EvalEvent.bumpsDF]
        omega

/-- Counting lemma for streams of pure `value` evaluations through aliases
holding value cell `c`: each event bumps exactly cell `c` once. -/
theorem runEvents_valueAt (c : Nat) :
    ∀ (es : List EvalEvent) (s : Store), (∀ e ∈ es, e.valueAt c) →
      (runEvents es s).read c = s.read c + es.length := by
  intro es
  induction es with
  | nil => intro s _; simp [runEvents]
  | cons e es ih =>
    intro s hall
    have hrest : ∀ e2 ∈ es, e2.valueAt c :=
      fun e2 h2 => hall e2 (List.mem_cons_of_mem e h2)
    have he := hall e (List.mem_cons_self e es)
    cases e with
    | fnVal fn x =>
      simp only [EvalEvent.valueAt] at he
      simp only [runEvents, EvalEvent.apply, Function.f, he, bumpOpt]
      rw [ih (s.bump c) hrest, Store.read_bump_self]
      simp
      omega
    | dfVal fn x =>
      simp only [EvalEvent.valueAt] at he
      simp only [runEvents, EvalEvent.apply, Differentiable_Function.f, he, bumpOpt]
      rw [ih (s.bump c) hrest, Store.read_bump_self]
      simp
      omega
    | dfDeriv fn x => exact absurd he (by simp [EvalEvent.valueAt])
    | dfBoth fn x => exact absurd he (by simp [EvalEvent.valueAt])

/-! ### Claims C5, C6, C9, C10, C8 -/

/-- C5: when counters have been initialized, each evaluation increments the
matching shared counter exactly once — `value` and `value_and_derivative`
increment the value counter, `derivative` and `value_and_derivative` the
derivative counter, both advancing on the combined call — so after any stream
of evaluations through any mix of aliases sharing the two counter cells, each
cell has advanced by exactly the number of matching evaluations. -/
theorem counter_correctness (es : List EvalEvent) (cf cd : Nat) (s : Store)
    (hne : cf ≠ cd) (hall : ∀ e ∈ es, e.sharesCounters cf cd) :
    (runEvents es s).read cf = s.read cf + countF es ∧
    (runEvents es s).read cd = s.read cd + countDF es :=
  runEvents_sharesCounters cf cd hne es s hall

theorem counter_correctness_witness :
    (runEvents esW Store.empty).read 0 = Store.empty.read 0 + countF esW ∧
    (runEvents esW Store.empty).read 1 = Store.empty.read 1 + countDF esW := by
  refine counter_correctness esW 0 1 Store.empty (by omega) ?_
  intro e he
  simp only [esW, List.mem_cons, List.not_mem_nil, or_false] at he
  rcases he with rfl | rfl | rfl | rfl <;>
    simp [EvalEvent.sharesCounters, Differentiable_Function.as_function, fnW]

/-- C6: a plain `Function` obtained by downgrading a `Differentiable_Function`
(via `as_function` or the conversion operator) keeps the evaluation
strategy and value counter cell, its `value` evaluation has exactly the same
result and store effect as `value` on the original, and any mix of `value`
evaluations through the original and the downgrade accumulates into the one
shared cell. -/
theorem downgrade_counter_sharing (fn : Differentiable_Function) (x : ℚ)
    (s : Store) (c : Nat) (es : List (Bool × ℚ)) (hc : fn.f_counter = some c) :
    fn.as_function.f_counter = fn.f_counter ∧
    fn.as_function.impl = fn.f_impl ∧
    fn.as_function.f x s = fn.f x s ∧
    (runEvents (es.map (fun e => if e.1 then EvalEvent.fnVal fn.as_function e.2
        else EvalEvent.dfVal fn e.2)) s).read c = s.read c + es.length := by
  refine ⟨rfl, rfl, rfl, ?_⟩
  have hall : ∀ e ∈ es.map (fun e => if e.1 then EvalEvent.fnVal fn.as_function e.2
      else EvalEvent.dfVal fn e.2), e.valueAt c := by
    intro e he
    obtain ⟨p, _, rfl⟩ := List.mem_map.mp he
    by_cases hp : p.1 <;>
      simp [hp, EvalEvent.valueAt, Differentiable_Function.as_function, hc]
  rw [runEvents_valueAt c _ s hall, List.length_map]

theorem downgrade_counter_sharing_witness :
    fnW.as_function.f_counter = fnW.f_counter ∧
    fnW.as_function.impl = fnW.f_impl ∧
    fnW.as_function.f 3 Store.empty = fnW.f 3 Store.empty ∧
    (runEvents (es6.map (fun e => if e.1 then EvalEvent.fnVal fnW.as_function e.2
        else EvalEvent.dfVal fnW e.2)) Store.empty).read 0 =
      Store.empty.read 0 + es6.length :=
  downgrade_counter_sharing fnW 3 Store.empty 0 es6 rfl

/-- C9: reading an evaluation counter before it has been initialized fails
with `PreconditionViolation` (for the value counter of a plain `Function` and
for both counters of a `Differentiable_Function`); after `initialize_counter`
the read succeeds and returns the accumulated count (freshly zero right after
initialization, and in general the current content of the shared cell). -/
theorem counter_read_precondition (fn1 fn2 : Function)
    (dfn : Differentiable_Function) (s : Store) (c : Nat)
    (h1 : fn1.f_counter = none) (h2 : dfn.f_counter = none)
    (h3 : dfn.df_counter = none) (h4 : fn2.f_counter = some c) :
    fn1.f_counter_read s = Except.error Counter_Error.PreconditionViolation ∧
    dfn.f_counter_read s = Except.error Counter_Error.PreconditionViolation ∧
    dfn.df_counter_read s = Except.error Counter_Error.PreconditionViolation ∧
    fn2.f_counter_read s = Except.ok (s.read c) ∧
    (fn1.init_counter s).1.f_counter_read (fn1.init_counter s).2 = Except.ok 0 ∧
    (dfn.init_counter s).1.f_counter_read (dfn.init_counter s).2 = Except.ok 0 ∧
    (dfn.init_counter s).1.df_counter_read (dfn.init_counter s).2 = Except.ok 0 := by
  refine ⟨?_, ?_, ?_, ?_, ?_, ?_, ?_⟩
  · simp [Function.f_counter_read, h1]
  · simp [Differentiable_Function.f_counter_read, h2]
  · simp [Differentiable_Function.df_counter_read, h3]
  · simp [Function.f_counter_read, h4]
  · simp [Function.f_counter_read, Function.init_counter, Store.alloc, Store.read]
  · simp [Differentiable_Function.f_counter_read, Differentiable_Function.init_counter,
      Store.alloc, Store.read]
  · simp [Differentiable_Function.df_counter_read, Differentiable_Function.init_counter,
      Store.alloc, Store.read]

theorem counter_read_precondition_witness :
    fnNone.f_counter_read Store.empty = Except.error Counter_Error.PreconditionViolation ∧
    dfnNone.f_counter_read Store.empty = Except.error Counter_Error.PreconditionViolation ∧
    dfnNone.df_counter_read Store.empty = Except.error Counter_Error.PreconditionViolation ∧
    fnSome.f_counter_read Store.empty = Except.ok (Store.empty.read 0) ∧
    (fnNone.init_counter Store.empty).1.f_counter_read (fnNone.init_counter Store.empty).2 =
      Except.ok 0 ∧
    (dfnNone.init_counter Store.empty).1.f_counter_read (dfnNone.init_counter Store.empty).2 =
      Except.ok 0 ∧
    (dfnNone.init_counter Store.empty).1.df_counter_read (dfnNone.init_counter Store.empty).2 =
      Except.ok 0 :=
  counter_read_precondition fnNone fnSome dfnNone Store.empty 0 rfl rfl rfl rfl

/-- C10: `initialize_counter` installs a brand-new zero cell on the instance it
is called on (distinct from any allocated cell such as the one currently
held); a downgrade made before the (re-)initialization keeps the previous
cell, so its subsequent evaluations increment the old cell and are invisible
to the newly installed counter; and the second initialization discards the
accumulated count — the old cell keeps its content rather than being zeroed in
place, while a read through the re-initialized instance yields 0. -/
theorem counter_cell_identity (fn : Differentiable_Function) (s : Store)
    (c0 : Nat) (x : ℚ) (hc : fn.f_counter = some c0) (hv : c0 < s.next) :
    (fn.init_counter s).1.f_counter = some s.next ∧
    s.next ≠ c0 ∧
    (fn.init_counter s).2.read s.next = 0 ∧
    fn.as_function.f_counter = some c0 ∧
    (fn.init_counter s).2.read c0 = s.read c0 ∧
    (fn.as_function.f x (fn.init_counter s).2).2.read s.next = 0 ∧
    (fn.as_function.f x (fn.init_counter s).2).2.read c0 = s.read c0 + 1 ∧
    (fn.init_counter s).1.f_counter_read (fn.init_counter s).2 = Except.ok 0 := by
  have hne1 : c0 ≠ s.next := Nat.ne_of_lt hv
  have hne2 : c0 ≠ s.next + 1 := by omega
  refine ⟨rfl, Ne.symm hne1, ?_, ?_, ?_, ?_, ?_, ?_⟩
  · simp [Differentiable_Function.init_counter, Store.alloc, Store.read]
  · simp [Differentiable_Function.as_function, hc]
  · simp [Differentiable_Function.init_counter, Store.alloc, Store.read, hne1, hne2]
  · simp [Differentiable_Function.as_function, Function.f, hc, bumpOpt]
    rw [Store.read_bump_ne _ _ _ (Ne.symm hne1)]
    simp [Differentiable_Function.init_counter, Store.alloc, Store.read]
  · simp [Differentiable_Function.as_function, Function.f, hc, bumpOpt]
    rw [Store.read_bump_self]
    simp [Differentiable_Function.init_counter, Store.alloc, Store.read, hne1, hne2]
  · simp [Differentiable_Function.f_counter_read, Differentiable_Function.init_counter,
      Store.alloc, Store.read]

theorem counter_cell_identity_witness :
    (fnW.init_counter sW).1.f_counter = some sW.next ∧
    sW.next ≠ 0 ∧
    (fnW.init_counter sW).2.read sW.next = 0 ∧
    fnW.as_function.f_counter = some 0 ∧
    (fnW.init_counter sW).2.read 0 = sW.read 0 ∧
    (fnW.as_function.f 7 (fnW.init_counter sW).2).2.read sW.next = 0 ∧
    (fnW.as_function.f 7 (fnW.init_counter sW).2).2.read 0 = sW.read 0 + 1 ∧
    (fnW.init_counter sW).1.f_counter_read (fnW.init_counter sW).2 = Except.ok 0 :=
  counter_cell_identity fnW sW 0 7 rfl (by decide)

/-- C8: supplying `beta_1 = 1`, `beta_1 = 0` (and likewise for `beta_2`) —
values outside the open interval `(0,1)` — fails with `InvalidConfiguration`
at the point the value is supplied, while any value passing the strict range
check is accepted unchanged (never clamped). -/
theorem beta_range_validation (v : ℚ) (hv : Assert_In_01_Strict v = true) :
    Adam_Beta_1_assign 1 = Except.error Config_Error.InvalidConfiguration ∧
    Adam_Beta_1_assign 0 = Except.error Config_Error.InvalidConfiguration ∧
    Adam_Beta_2_assign 1 = Except.error Config_Error.InvalidConfiguration ∧
    Adam_Beta_2_assign 0 = Except.error Config_Error.InvalidConfiguration ∧
    Adam_Beta_1_assign v = Except.ok v ∧
    Adam_Beta_2_assign v = Except.ok v := by
  have h01 : 0 < v ∧ v < 1 := by simpa [Assert_In_01_Strict] using hv
  refine ⟨?_, ?_, ?_, ?_, ?_, ?_⟩ <;>
    simp [Adam_Beta_1_assign, Adam_Beta_2_assign, Named_Assert_Type_assign,
      Assert_In_01_Strict, h01.1, h01.2]

theorem beta_range_validation_witness :
    Adam_Beta_1_assign 1 = Except.error Config_Error.InvalidConfiguration ∧
    Adam_Beta_1_assign 0 = Except.error Config_Error.InvalidConfiguration ∧
    Adam_Beta_2_assign 1 = Except.error Config_Error.InvalidConfiguration ∧
    Adam_Beta_2_assign 0 = Except.error Config_Error.InvalidConfiguration ∧
    Adam_Beta_1_assign (1 / 2) = Except.ok (1 / 2) ∧
    Adam_Beta_2_assign (1 / 2) = Except.ok (1 / 2) :=
  beta_range_validation (1 / 2) (by norm_num [Assert_In_01_Strict])

/-! ### Newton: loop characterization (C2) -/

/-- One unfolding of the Newton loop. -/
theorem Newton_loop_succ (f_obj : Differentiable_Function) (epsilon : ℚ)
    (fuel : Nat) (x : ℚ) (s : Store) :
    Newton_loop f_obj epsilon (fuel + 1) x s =
      if |newtonDelta f_obj x| < epsilon
      then (true, newtonStep f_obj x, (f_obj.f_df x s).2)
      else Newton_loop f_obj epsilon fuel (newtonStep f_obj x) (f_obj.f_df x s).2 := rfl

/-- The Newton loop either runs out of fuel with no iteration converged and
the iterate advanced `fuel` times, or stops at the first (least) iteration
whose increment falls below `epsilon`, returning `true` with the iterate
advanced up to and including that iteration. -/
theorem Newton_loop_char (f_obj : Differentiable_Function) (epsilon : ℚ) :
    ∀ (fuel : Nat) (x : ℚ) (s : Store),
      ((∀ i, i < fuel → ¬ |newtonDelta f_obj (newtonIter f_obj i x)| < epsilon) ∧
        ∃ s2, Newton_loop f_obj epsilon fuel x s = (false, newtonIter f_obj fuel x, s2)) ∨
      (∃ j, j < fuel ∧
        (∀ i, i < j → ¬ |newtonDelta f_obj (newtonIter f_obj i x)| < epsilon) ∧
        |newtonDelta f_obj (newtonIter f_obj j x)| < epsilon ∧
        ∃ s2, Newton_loop f_obj epsilon fuel x s = (true, newtonIter f_obj (j + 1) x, s2)) := by
  intro fuel
  induction fuel with
  | zero =>
    intro x s
    exact Or.inl ⟨fun i hi => absurd hi (Nat.not_lt_zero i), s, rfl⟩
  | succ n ih =>
    intro x s
    by_cases hc : |newtonDelta f_obj x| < epsilon
    · refine Or.inr ⟨0, Nat.succ_pos n, fun i hi => absurd hi (Nat.not_lt_zero i), hc,
        (f_obj.f_df x s).2, ?_⟩
      rw [Newton_loop_succ, if_pos hc]
      rfl
    · rcases ih (newtonStep f_obj x) ((f_obj.f_df x s).2) with
        ⟨hall, s2, heq⟩ | ⟨j, hj, hleast, hconv, s2, heq⟩
      · refine Or.inl ⟨?_, s2, ?_⟩
        · intro i hi
          cases i with
          | zero => simpa [newtonIter] using hc
          | succ i2 => exact hall i2 (Nat.lt_of_succ_lt_succ hi)
        · rw [Newton_loop_succ, if_neg hc]
          exact heq
      · refine Or.inr ⟨j + 1, Nat.succ_lt_succ hj, ?_, hconv, s2, ?_⟩
        · intro i hi
          cases i with
          | zero => simpa [newtonIter] using hc
          | succ i2 => exact hleast i2 (Nat.lt_of_succ_lt_succ hi)
        · rw [Newton_loop_succ, if_neg hc]
          exact heq

/-- C2: Newton evaluates `(f, df) = value_and_derivative(x)`, computes
`delta = -f/df`, updates `x += delta`, and declares convergence exactly when
`|delta| < epsilon`: the run returns `false` with the iterate advanced
`max_iter` times when no iteration has an increment below `epsilon`, and
otherwise stops at the first such iteration, returning `true` with the iterate
advanced up to and including it; the defaults are `epsilon = 1e-10` and
`max_iter = 20`. -/
theorem newton_matches_spec :
    (∀ (f_obj : Differentiable_Function) (epsilon : ℚ) (fuel : Nat) (x : ℚ) (s : Store),
      ((∀ i, i < fuel → ¬ |newtonDelta f_obj (newtonIter f_obj i x)| < epsilon) ∧
        ∃ s2, Newton_loop f_obj epsilon fuel x s = (false, newtonIter f_obj fuel x, s2)) ∨
      (∃ j, j < fuel ∧
        (∀ i, i < j → ¬ |newtonDelta f_obj (newtonIter f_obj i x)| < epsilon) ∧
        |newtonDelta f_obj (newtonIter f_obj j x)| < epsilon ∧
        ∃ s2, Newton_loop f_obj epsilon fuel x s = (true, newtonIter f_obj (j + 1) x, s2))) ∧
    (∀ (f_obj : Differentiable_Function) (x : ℚ) (s : Store),
      Newton f_obj x s = Newton_loop f_obj (1 / 10 ^ 10) 20 x s) :=
  ⟨fun f_obj epsilon => Newton_loop_char f_obj epsilon, fun _ _ _ => rfl⟩

theorem newton_matches_spec_witness :
    (Newton_loop dfnNone 1 1 0 Store.empty).1 = true := by
  rcases newton_matches_spec.1 dfnNone 1 1 0 Store.empty with
    ⟨hall, _⟩ | ⟨j, hj, hleast, hconv, s2, heq⟩
  · exact absurd
      (show |newtonDelta dfnNone (newtonIter dfnNone 0 0)| < 1 by
        norm_num [newtonDelta, newtonIter, dfnNone])
      (hall 0 Nat.one_pos)
  · rw [heq]

/-! ### Steffensen: loop characterization with evaluation counts (C3) -/

/-- One unfolding of the Steffensen loop. -/
theorem Steffensen_loop_succ (f_obj : Function) (epsilon : ℚ)
    (fuel : Nat) (x : ℚ) (s : Store) :
    Steffensen_loop f_obj epsilon (fuel + 1) x s =
      if |steffDelta f_obj x| < epsilon
      then (true, steffStep f_obj x, (f_obj.f (x + f_obj.impl x) (f_obj.f x s).2).2)
      else Steffensen_loop f_obj epsilon fuel (steffStep f_obj x)
        (f_obj.f (x + f_obj.impl x) (f_obj.f x s).2).2 := rfl

/-- The Steffensen loop has the same termination structure as Newton, and when
a value counter is installed at cell `c`, the store after the run shows
exactly two value evaluations per iteration executed and no change to any
other cell (in particular none to any derivative counter cell). -/
theorem Steffensen_loop_char (f_obj : Function) (epsilon : ℚ) (c : Nat)
    (hcnt : f_obj.f_counter = some c) :
    ∀ (fuel : Nat) (x : ℚ) (s : Store),
      ((∀ i, i < fuel → ¬ |steffDelta f_obj (steffIter f_obj i x)| < epsilon) ∧
        ∃ s2, Steffensen_loop f_obj epsilon fuel x s = (false, steffIter f_obj fuel x, s2) ∧
          s2.read c = s.read c + 2 * fuel ∧ ∀ c2, c2 ≠ c → s2.read c2 = s.read c2) ∨
      (∃ j, j < fuel ∧
        (∀ i, i < j → ¬ |steffDelta f_obj (steffIter f_obj i x)| < epsilon) ∧
        |steffDelta f_obj (steffIter f_obj j x)| < epsilon ∧
        ∃ s2, Steffensen_loop f_obj epsilon fuel x s = (true, steffIter f_obj (j + 1) x, s2) ∧
          s2.read c = s.read c + 2 * (j + 1) ∧ ∀ c2, c2 ≠ c → s2.read c2 = s.read c2) := by
  intro fuel
  induction fuel with
  | zero =>
    intro x s
    exact Or.inl ⟨fun i hi => absurd hi (Nat.not_lt_zero i), s, rfl, by omega,
      fun c2 _ => rfl⟩
  | succ n ih =>
    intro x s
    have hst : (f_obj.f (x + f_obj.impl x) (f_obj.f x s).2).2 = (s.bump c).bump c := by
      simp [Function.f, bumpOpt, hcnt]
    by_cases hc : |steffDelta f_obj x| < epsilon
    · refine Or.inr ⟨0, Nat.succ_pos n, fun i hi => absurd hi (Nat.not_lt_zero i), hc,
        (s.bump c).bump c, ?_, ?_, ?_⟩
      · rw [Steffensen_loop_succ, if_pos hc, hst]
        rfl
      · rw [Store.read_bump_self, Store.read_bump_self]
      · intro c2 h2
        rw [Store.read_bump_ne _ _ _ h2, Store.read_bump_ne _ _ _ h2]
    · rcases ih (steffStep f_obj x) ((s.bump c).bump c) with
        ⟨hall, s2, heq, hrc, hro⟩ | ⟨j, hj, hleast, hconv, s2, heq, hrc, hro⟩
      · refine Or.inl ⟨?_, s2, ?_, ?_, ?_⟩
        · intro i hi
          cases i with
          | zero => simpa [steffIter] using hc
          | succ i2 => exact hall i2 (Nat.lt_of_succ_lt_succ hi)
        · rw [Steffensen_loop_succ, if_neg hc, hst]
          exact heq
        · rw [hrc, Store.read_bump_self, Store.read_bump_self]
          omega
        · intro c2 h2
          rw [hro c2 h2, Store.read_bump_ne _ _ _ h2, Store.read_bump_ne _ _ _ h2]
      · refine Or.inr ⟨j + 1, Nat.succ_lt_succ hj, ?_, hconv, s2, ?_, ?_, ?_⟩
        · intro i hi
          cases i with
          | zero => simpa [steffIter] using hc
          | succ i2 => exact hleast i2 (Nat.lt_of_succ_lt_succ hi)
        · rw [Steffensen_loop_succ, if_neg hc, hst]
          exact heq
        · rw [hrc, Store.read_bump_self, Store.read_bump_self]
          omega
        · intro c2 h2
          rw [hro c2 h2, Store.read_bump_ne _ _ _ h2, Store.read_bump_ne _ _ _ h2]

/-- C3: Steffensen evaluates `f = value(x)` and `g = value(x + f)`, computes
`delta = -f*f/(g - f)`, updates `x += delta`, and follows the Newton
convergence/termination policy (first iteration with `|delta| < epsilon`
returns `true`, cap exhaustion returns `false`); operating on the plain
`Function` capability, every executed iteration performs exactly two value
evaluations (the shared value cell advances by two per iteration) and no
derivative evaluation (every other cell is untouched). -/
theorem steffensen_matches_spec (f_obj : Function) (epsilon : ℚ) (c : Nat)
    (fuel : Nat) (x : ℚ) (s : Store) (hcnt : f_obj.f_counter = some c) :
    ((∀ i, i < fuel → ¬ |steffDelta f_obj (steffIter f_obj i x)| < epsilon) ∧
      ∃ s2, Steffensen_loop f_obj epsilon fuel x s = (false, steffIter f_obj fuel x, s2) ∧
        s2.read c = s.read c + 2 * fuel ∧ ∀ c2, c2 ≠ c → s2.read c2 = s.read c2) ∨
    (∃ j, j < fuel ∧
      (∀ i, i < j → ¬ |steffDelta f_obj (steffIter f_obj i x)| < epsilon) ∧
      |steffDelta f_obj (steffIter f_obj j x)| < epsilon ∧
      ∃ s2, Steffensen_loop f_obj epsilon fuel x s = (true, steffIter f_obj (j + 1) x, s2) ∧
        s2.read c = s.read c + 2 * (j + 1) ∧ ∀ c2, c2 ≠ c → s2.read c2 = s.read c2) :=
  Steffensen_loop_char f_obj epsilon c hcnt fuel x s

theorem steffensen_matches_spec_witness :
    (Steffensen_loop steffW 1 1 0 Store.empty).1 = true ∧
    (Steffensen_loop steffW 1 1 0 Store.empty).2.2.read 0 = 2 := by
  rcases steffensen_matches_spec steffW 1 0 1 0 Store.empty rfl with
    ⟨hall, _⟩ | ⟨j, hj, hleast, hconv, s2, heq, hrc, hro⟩
  · exact absurd
      (show |steffDelta steffW (steffIter steffW 0 0)| < 1 by
        norm_num [steffDelta, steffIter, steffW])
      (hall 0 Nat.one_pos)
  · have hj0 : j = 0 := by omega
    subst hj0
    rw [heq]
    refine ⟨rfl, ?_⟩
    simpa [Store.empty, Store.read] using hrc

/-! ### Adam: iteration budget, update step, and re-run behavior -/

/-- One unfolding of the Adam loop. -/
theorem Adam_loop_succ (cfg : Adam_Configuration) (sq : ℚ → ℚ)
    (dfF : List ℚ → List ℚ) (fuel k : Nat) (m_k v_k x : List ℚ) :
    Adam_loop cfg sq dfF (fuel + 1) k m_k v_k x =
      if norm_2 sq (dfF x) < cfg.absolute_epsilon then (true, x, 0)
      else bump_steps (Adam_loop cfg sq dfF fuel (k + 1)
        (adam_m_update cfg.beta_1 m_k (dfF x)) (adam_v_update cfg.beta_2 v_k (dfF x))
        (adam_x_update cfg sq k (adam_m_update cfg.beta_1 m_k (dfF x))
          (adam_v_update cfg.beta_2 v_k (dfF x)) x)) := rfl

/-- The Adam loop executes at most `fuel` update steps. -/
theorem Adam_loop_steps_le (cfg : Adam_Configuration) (sq : ℚ → ℚ)
    (dfF : List ℚ → List ℚ) :
    ∀ (fuel k : Nat) (m_k v_k x : List ℚ),
      (Adam_loop cfg sq dfF fuel k m_k v_k x).2.2 ≤ fuel := by
  intro fuel
  induction fuel with
  | zero => intro k m_k v_k x; simp [Adam_loop]
  | succ n ih =>
    intro k m_k v_k x
    rw [Adam_loop_succ]
    by_cases h : norm_2 sq (dfF x) < cfg.absolute_epsilon
    · rw [if_pos h]
      simp
    · rw [if_neg h]
      have hr := ih (k + 1) (adam_m_update cfg.beta_1 m_k (dfF x))
        (adam_v_update cfg.beta_2 v_k (dfF x))
        (adam_x_update cfg sq k (adam_m_update cfg.beta_1 m_k (dfF x))
          (adam_v_update cfg.beta_2 v_k (dfF x)) x)
      simp [bump_steps]
      omega

/-- A `true` result of the Adam loop is returned with an iterate whose
gradient norm is below the threshold (the convergence test of the loop). -/
theorem Adam_loop_converged (cfg : Adam_Configuration) (sq : ℚ → ℚ)
    (dfF : List ℚ → List ℚ) :
    ∀ (fuel k : Nat) (m_k v_k x y : List ℚ) (n : Nat),
      Adam_loop cfg sq dfF fuel k m_k v_k x = (true, y, n) →
      norm_2 sq (dfF y) < cfg.absolute_epsilon := by
  intro fuel
  induction fuel with
  | zero =>
    intro k m_k v_k x y n h
    exact absurd h (by simp [Adam_loop])
  | succ n2 ih =>
    intro k m_k v_k x y n h
    rw [Adam_loop_succ] at h
    by_cases hconv : norm_2 sq (dfF x) < cfg.absolute_epsilon
    · rw [if_pos hconv] at h
      have hx : x = y := congrArg (fun p => p.2.1) h
      rw [← hx]
      exact hconv
    · rw [if_neg hconv] at h
      rcases hE : Adam_loop cfg sq dfF n2 (k + 1)
          (adam_m_update cfg.beta_1 m_k (dfF x)) (adam_v_update cfg.beta_2 v_k (dfF x))
          (adam_x_update cfg sq k (adam_m_update cfg.beta_1 m_k (dfF x))
            (adam_v_update cfg.beta_2 v_k (dfF x)) x) with ⟨b, z, st⟩
      rw [hE] at h
      simp only [bump_steps] at h
      have hb : b = true := congrArg (fun p => p.1) h
      have hz : z = y := congrArg (fun p => p.2.1) h
      rw [hb, hz] at hE
      exact ih (k + 1) _ _ _ y st hE

/-- C1: `Adam_optimize` executes at most `maximimum_iterations - 1` update
steps (the loop starts at `k = 1` and runs while `k < maximimum_iterations`);
with `maximimum_iterations = 1` the loop body never executes, the iterate is
returned unchanged, and the solver returns `false`. -/
theorem adam_iteration_budget (cfg : Adam_Configuration) (sq : ℚ → ℚ)
    (dfF : List ℚ → List ℚ) (x : List ℚ) :
    (Adam_optimize cfg sq dfF x).2.2 ≤ cfg.maximimum_iterations - 1 ∧
    (cfg.maximimum_iterations = 1 → Adam_optimize cfg sq dfF x = (false, x, 0)) := by
  constructor
  · exact Adam_loop_steps_le cfg sq dfF (cfg.maximimum_iterations - 1) 1 _ _ x
  · intro h1
    simp [Adam_optimize, h1, Adam_loop]

theorem adam_iteration_budget_witness :
    Adam_optimize cfg1 (fun q => q) dfW [2] = (false, [2], 0) :=
  (adam_iteration_budget cfg1 (fun q => q) dfW [2]).2 rfl

/-- C4: each Adam call zero-initializes the moment vectors at the domain
dimensionality (solver-local, so nothing persists between calls); a
non-terminating iteration performs exactly the updates
`m = β1·m + (1-β1)·g`, `v = β2·v + (1-β2)·g⊙g`, and — after bias correction
`m̂ = m/(1-β1^k)`, `v̂ = v/(1-β2^k)` — the element-wise iterate update
`x ← x - α(k)·m̂/(√v̂ + internal_epsilon)` with `α(k)` the configured step-size
schedule at the current iteration index. -/
theorem adam_update_matches_spec :
    (∀ (cfg : Adam_Configuration) (sq : ℚ → ℚ) (dfF : List ℚ → List ℚ) (x : List ℚ),
      Adam_optimize cfg sq dfF x =
        Adam_loop cfg sq dfF (cfg.maximimum_iterations - 1) 1
          (List.replicate x.length 0) (List.replicate x.length 0) x) ∧
    (∀ (cfg : Adam_Configuration) (sq : ℚ → ℚ) (dfF : List ℚ → List ℚ)
      (fuel k : Nat) (m_k v_k x : List ℚ),
      ¬ norm_2 sq (dfF x) < cfg.absolute_epsilon →
      Adam_loop cfg sq dfF (fuel + 1) k m_k v_k x =
        bump_steps (Adam_loop cfg sq dfF fuel (k + 1)
          (adam_m_update cfg.beta_1 m_k (dfF x)) (adam_v_update cfg.beta_2 v_k (dfF x))
          (adam_x_update cfg sq k (adam_m_update cfg.beta_1 m_k (dfF x))
            (adam_v_update cfg.beta_2 v_k (dfF x)) x))) ∧
    (∀ (beta_1 : ℚ) (m g : List ℚ) (i : Nat)
      (h : i < (adam_m_update beta_1 m g).length) (hm : i < m.length) (hg : i < g.length),
      (adam_m_update beta_1 m g).get ⟨i, h⟩ =
        beta_1 * m.get ⟨i, hm⟩ + (1 - beta_1) * g.get ⟨i, hg⟩) ∧
    (∀ (beta_2 : ℚ) (v g : List ℚ) (i : Nat)
      (h : i < (adam_v_update beta_2 v g).length) (hv : i < v.length) (hg : i < g.length),
      (adam_v_update beta_2 v g).get ⟨i, h⟩ =
        beta_2 * v.get ⟨i, hv⟩ + (1 - beta_2) * (g.get ⟨i, hg⟩ * g.get ⟨i, hg⟩)) ∧
    (∀ (cfg : Adam_Configuration) (sq : ℚ → ℚ) (k : Nat) (m v x : List ℚ) (i : Nat)
      (h : i < (adam_x_update cfg sq k m v x).length)
      (hm : i < m.length) (hv : i < v.length) (hx : i < x.length),
      (adam_x_update cfg sq k m v x).get ⟨i, h⟩ =
        x.get ⟨i, hx⟩ - cfg.alpha_schedule k *
          ((m.get ⟨i, hm⟩ / (1 - cfg.beta_1 ^ k)) /
            (sq (v.get ⟨i, hv⟩ / (1 - cfg.beta_2 ^ k)) + cfg.internal_epsilon))) := by
  refine ⟨fun _ _ _ _ => rfl, ?_, ?_, ?_, ?_⟩
  · intro cfg sq dfF fuel k m_k v_k x h
    rw [Adam_loop_succ, if_neg h]
  · intro beta_1 m g i h hm hg
    simp [adam_m_update, vadd, smul, List.get_eq_getElem, List.getElem_zipWith,
      List.getElem_map]
  · intro beta_2 v g i h hv hg
    simp [adam_v_update, vadd, vmul, smul, List.get_eq_getElem, List.getElem_zipWith,
      List.getElem_map]
  · intro cfg sq k m v x i h hm hv hx
    simp only [adam_x_update, vsub, vdiv, smul, vaddScalar, vsqrt, List.get_eq_getElem,
      List.getElem_zipWith, List.getElem_map]
    rw [one_div_mul_eq_div, one_div_mul_eq_div, mul_div_assoc]

theorem adam_update_matches_spec_witness :
    (adam_m_update (1 / 2) [2] [4]).get ⟨0, by decide⟩ =
      1 / 2 * (([2] : List ℚ).get ⟨0, by decide⟩) +
        (1 - 1 / 2) * (([4] : List ℚ).get ⟨0, by decide⟩) :=
  adam_update_matches_spec.2.2.1 (1 / 2) [2] [4] 0 (by decide) (by decide) (by decide)

/-! ### Round-trip idempotence (C7) -/

/-- Counterexample to C7 as stated: for the objective `fdfC`, a Newton run
from `x = 0` with `epsilon = 1/2`, `max_iter = 2` converges (first increment
`-1/4`), landing on the iterate `-1/4`; re-running the solver from that
already-converged iterate with the same configuration does not re-detect
convergence on iteration 1 — it returns `false` — because Newton re-evaluates
the increment (here `-1`) and applies it before testing convergence. -/
theorem rerun_idempotence_fails_for_newton :
    (Newton fdfC 0 Store.empty (1 / 2) 2).1 = true ∧
    (Newton fdfC 0 Store.empty (1 / 2) 2).2.1 = -(1 / 4) ∧
    (Newton fdfC (-(1 / 4)) Store.empty (1 / 2) 2).1 = false := by
  have hd0 : newtonDelta fdfC 0 = -(1 / 4) := by
    norm_num [newtonDelta, fdfC]
  have habs : |(-(1 / 4) : ℚ)| < 1 / 2 := by norm_num [abs_lt]
  have hs0 : newtonStep fdfC 0 = -(1 / 4) := by
    norm_num [newtonStep, hd0]
  have hd1 : newtonDelta fdfC (-(1 / 4)) = -1 := by
    norm_num [newtonDelta, fdfC]
  have habs1 : ¬ |(-1 : ℚ)| < 1 / 2 := by norm_num [abs_lt]
  have hs1 : newtonStep fdfC (-(1 / 4)) = -(5 / 4) := by
    norm_num [newtonStep, hd1]
  have hd2 : newtonDelta fdfC (-(5 / 4)) = -1 := by
    norm_num [newtonDelta, fdfC]
  have h1 : Newton fdfC 0 Store.empty (1 / 2) 2 =
      (true, newtonStep fdfC 0, (fdfC.f_df 0 Store.empty).2) := by
    show Newton_loop fdfC (1 / 2) 2 0 Store.empty = _
    rw [show (2 : Nat) = 1 + 1 from rfl, Newton_loop_succ, hd0, if_pos habs]
  refine ⟨by rw [h1], by rw [h1]; exact hs0, ?_⟩
  show (Newton_loop fdfC (1 / 2) 2 (-(1 / 4)) Store.empty).1 = false
  rw [show (2 : Nat) = 1 + 1 from rfl, Newton_loop_succ, hd1, if_neg habs1, hs1,
    show (1 : Nat) = 0 + 1 from rfl, Newton_loop_succ, hd2, if_neg habs1]
  rfl

/-- C7 (amended): for the Adam solver the round trip does hold — re-running
`Adam_optimize` from an already-converged iterate with the same configuration
re-detects convergence at the first loop entry (`k = 1`), returns `true`, and
leaves the iterate unchanged with zero update steps.  For Newton and
Steffensen the property fails in general (see the counterexample): both apply
their update to the iterate before testing convergence, so a re-run can drift
and need not re-detect convergence. -/
theorem adam_rerun_idempotence (cfg : Adam_Configuration) (sq : ℚ → ℚ)
    (dfF : List ℚ → List ℚ) (x y : List ℚ) (n : Nat)
    (h : Adam_optimize cfg sq dfF x = (true, y, n)) :
    Adam_optimize cfg sq dfF y = (true, y, 0) := by
  have hconv : norm_2 sq (dfF y) < cfg.absolute_epsilon :=
    Adam_loop_converged cfg sq dfF (cfg.maximimum_iterations - 1) 1 _ _ x y n h
  rcases hm : cfg.maximimum_iterations - 1 with _ | fuel
  · exfalso
    have h2 := h
    unfold Adam_optimize at h2
    rw [hm] at h2
    simp [Adam_loop] at h2
  · unfold Adam_optimize
    rw [hm, Adam_loop_succ, if_pos hconv]

theorem adam_rerun_idempotence_witness :
    Adam_optimize cfgA (fun q => q) dfW [5] = (true, [5], 0) :=
  adam_rerun_idempotence cfgA (fun q => q) dfW [5] [5] 0 (by
    have hm : cfgA.maximimum_iterations - 1 = 0 + 1 := rfl
    have hcv : norm_2 (fun q => q) (dfW [5]) < cfgA.absolute_epsilon := by
      norm_num [norm_2, squared_norm_2, dfW, cfgA]
    unfold Adam_optimize
    rw [hm, Adam_loop_succ, if_pos hcv])

end Optimize
